import Mathlib

/-!
Verification development for the NexusVerse smart-contract core
(`NexusVerseToken` and `NexusVerseIdentity`, Solidity 0.8.20 with
OpenZeppelin v5 ERC20 + ERC20Burnable + ERC20Pausable + Ownable).

Modelling conventions (shallow embedding):

* Addresses and `uint256`/`bytes32` values are `Nat`.  Address `0` is the
  zero address; the token contract's own address (which holds the staking
  pool balance) is the fixed constant `poolAddr = 1`.  All quantities in
  the claims are far below `2 ^ 256`, where Solidity 0.8 checked
  arithmetic and unbounded `Nat` arithmetic agree; every `require`-guarded
  subtraction in the source is performed only when the guard makes it
  exact, so `Nat` truncated subtraction coincides with the EVM value.
* Each external function becomes a Lean function
  `state → args → Except Err state`.  A `.error e` result models a
  Solidity revert: the transaction aborts and no state change survives,
  which is why "fails and changes no state" is expressed as the operation
  returning `.error e`.
* The inherited OpenZeppelin pieces the contract's behavior depends on are
  embedded from their v5 sources: `ERC20._update` (balance/supply moves
  with the insufficient-balance check), `ERC20Pausable._update`
  (`whenNotPaused` wrapped around it — the contract's `erc20_update` override
  dispatches through it, so mints and burns are paused too), `erc20_mint`,
  `erc20_burn`, `erc20_transfer` (zero-address checks), `ERC20Burnable.burn`,
  `Pausable._pause` / `_unpause`, and `Ownable.onlyOwner`.
* `msg.sender` is an explicit `caller` argument; traces over operations
  require `caller ≠ 0` (an EVM transaction cannot originate from the zero
  address).  `block.timestamp` is an explicit `now` argument; token traces
  require timestamps to be non-decreasing.
* Events and the ERC20 allowance surface (`approve`/`transferFrom`) are
  not modelled: no claim mentions them, and `transferFrom` moves balances
  exactly as `transfer` does.  `ReentrancyGuard` is a no-op under the
  serialized one-operation-at-a-time execution model of the spec.
-/

namespace NexusVerse

abbrev Addr := Nat

/-- The token contract's own address (`address(this)`), owner of the staking pool balance. -/
def poolAddr : Addr := 1

/-- Typed revert reasons of the token contract, named after the spec's error
taxonomy; each constructor corresponds to one `require`/OZ revert site. -/
inductive TokenErr where
  /-- OZ `EnforcedPause` (from `ERC20Pausable._update` / `Pausable.whenNotPaused`). -/
  | enforcedPause
  /-- OZ `ExpectedPause` (from `Pausable.whenPaused`, hit by `unpause` when not paused). -/
  | expectedPause
  /-- OZ `ERC20InvalidSender` (transfer/burn from the zero address). -/
  | invalidSender
  /-- OZ `ERC20InvalidReceiver` (transfer/mint to the zero address). -/
  | invalidReceiver
  /-- "Insufficient balance" / OZ `ERC20InsufficientBalance`. -/
  | insufficientBalance
  /-- "Amount must be greater than 0". -/
  | invalidAmount
  /-- "Insufficient staked amount". -/
  | insufficientStake
  /-- "No rewards to claim". -/
  | noRewardsAvailable
  /-- "Exceeds max supply". -/
  | supplyCapExceeded
  /-- OZ `OwnableUnauthorizedAccount` (the `onlyOwner` modifier). -/
  | notOwner
  /-- "Reward rate too high". -/
  | rateTooHigh
  deriving Repr, DecidableEq

/-- State of `NexusVerseToken`: ERC20 balances/supply plus the staking fields. -/
structure TokenState where
  balances : Addr → Nat
  totalSupply : Nat
  stakedAmount : Addr → Nat
  stakingStartTime : Addr → Nat
  totalStaked : Nat
  rewardRate : Nat
  paused : Bool
  owner : Addr

/-- `INITIAL_SUPPLY = 1000000000 * 10**18` (1 billion tokens). -/
def INITIAL_SUPPLY : Nat := 1000000000 * 10 ^ 18

/-- `MAX_SUPPLY = 10000000000 * 10**18` (10 billion tokens). -/
def MAX_SUPPLY : Nat := 10000000000 * 10 ^ 18

/-- Post-constructor state: `erc20_mint(msg.sender, INITIAL_SUPPLY)`, `rewardRate = 100`,
not paused, deployer is the owner. -/
def initialTokenState (deployer : Addr) : TokenState where
  balances := Function.update (fun _ => 0) deployer INITIAL_SUPPLY
  totalSupply := INITIAL_SUPPLY
  stakedAmount := fun _ => 0
  stakingStartTime := fun _ => 0
  totalStaked := 0
  rewardRate := 100
  paused := false
  owner := deployer

/-- Sequencing of revertible steps: an error aborts the whole transaction. -/
def bindE {ε α β : Type} (e : Except ε α) (f : α → Except ε β) : Except ε β :=
  match e with
  | .error err => .error err
  | .ok a => f a

/-- The contract's `_update` override (source name `_update`; Lean forbids the leading underscore): `ERC20Pausable._update` (i.e. `whenNotPaused`)
followed by `ERC20._update` — `from = 0` mints into `totalSupply`, `to = 0` burns
out of it, otherwise balances move with the insufficient-balance check. -/
def erc20_update (s : TokenState) (frm toAddr value : Addr) : Except TokenErr TokenState :=
  if s.paused then .error .enforcedPause
  else
    bindE (if frm = 0 then
            .ok { s with totalSupply := s.totalSupply + value }
          else if s.balances frm < value then
            .error .insufficientBalance
          else
            .ok { s with balances := Function.update s.balances frm (s.balances frm - value) })
      (fun s1 =>
        if toAddr = 0 then .ok { s1 with totalSupply := s1.totalSupply - value }
        else .ok { s1 with balances := Function.update s1.balances toAddr (s1.balances toAddr + value) })

/-- OZ `_mint`: reverts for the zero receiver, otherwise `erc20_update(0, account, value)`. -/
def erc20_mint (s : TokenState) (account value : Nat) : Except TokenErr TokenState :=
  if account = 0 then .error .invalidReceiver else erc20_update s 0 account value

/-- OZ `_burn`: reverts for the zero sender, otherwise `erc20_update(account, 0, value)`. -/
def erc20_burn (s : TokenState) (account value : Nat) : Except TokenErr TokenState :=
  if account = 0 then .error .invalidSender else erc20_update s account 0 value

/-- OZ `_transfer`: zero-address checks, then `erc20_update(from, to, value)`. -/
def erc20_transfer (s : TokenState) (frm toAddr value : Nat) : Except TokenErr TokenState :=
  if frm = 0 then .error .invalidSender
  else if toAddr = 0 then .error .invalidReceiver
  else erc20_update s frm toAddr value

/-- The balance function produced by a successful `_transfer`/`_update` from
`f` to `t` of `v`: debit `f`, then credit `t` (reading the debited value,
which is what the source does when `f = t`). -/
def transferBalances (bal : Addr → Nat) (f t v : Nat) : Addr → Nat :=
  Function.update (Function.update bal f (bal f - v)) t
    ((Function.update bal f (bal f - v)) t + v)

/-- `ERC20.transfer(to, value)` with `msg.sender = caller`. -/
def transfer (s : TokenState) (caller toAddr value : Nat) : Except TokenErr TokenState :=
  erc20_transfer s caller toAddr value

/-- `ERC20Burnable.burn(value)` with `msg.sender = caller`. -/
def burn (s : TokenState) (caller value : Nat) : Except TokenErr TokenState :=
  erc20_burn s caller value

/-- `calculateRewards(user)` evaluated at `block.timestamp = now`:
`stakedAmount * rewardRate * stakingDuration / (365 days * 10000)`,
returning 0 when nothing is staked.  (`365 days = 31536000` seconds.) -/
def calculateRewards (s : TokenState) (user : Addr) (now : Nat) : Nat :=
  if s.stakedAmount user = 0 then 0
  else s.stakedAmount user * s.rewardRate * (now - s.stakingStartTime user) / (365 * 86400 * 10000)

/-- `stake(amount)`: amount/balance requires, settle pending rewards by minting
(no supply-cap check in the source), move `amount` to the pool, then bump
`stakedAmount`, reset `stakingStartTime` to `now`, bump `totalStaked`. -/
def stake (s : TokenState) (caller amount now : Nat) : Except TokenErr TokenState :=
  if amount = 0 then .error .invalidAmount
  else if s.balances caller < amount then .error .insufficientBalance
  else
    bindE (if 0 < calculateRewards s caller now then
            erc20_mint s caller (calculateRewards s caller now)
          else .ok s) (fun s1 =>
    bindE (erc20_transfer s1 caller poolAddr amount) (fun s2 =>
      .ok { s2 with
        stakedAmount := Function.update s2.stakedAmount caller (s2.stakedAmount caller + amount)
        stakingStartTime := Function.update s2.stakingStartTime caller now
        totalStaked := s2.totalStaked + amount }))

/-- `unstake(amount)`: amount/staked requires, settle pending rewards by minting,
decrease `stakedAmount` and `totalStaked`, transfer `amount` back from the pool.
`stakingStartTime` is NOT reset here (faithful to the source). -/
def unstake (s : TokenState) (caller amount now : Nat) : Except TokenErr TokenState :=
  if amount = 0 then .error .invalidAmount
  else if s.stakedAmount caller < amount then .error .insufficientStake
  else
    bindE (if 0 < calculateRewards s caller now then
            erc20_mint s caller (calculateRewards s caller now)
          else .ok s) (fun s1 =>
    bindE (erc20_transfer
        { s1 with
          stakedAmount := Function.update s1.stakedAmount caller (s1.stakedAmount caller - amount)
          totalStaked := s1.totalStaked - amount }
        poolAddr caller amount) (fun s2 => .ok s2))

/-- `claimRewards()`: requires a positive pending reward, mints it
(no supply-cap check in the source) and resets `stakingStartTime` to `now`. -/
def claimRewards (s : TokenState) (caller now : Nat) : Except TokenErr TokenState :=
  if calculateRewards s caller now = 0 then .error .noRewardsAvailable
  else
    bindE (erc20_mint s caller (calculateRewards s caller now)) (fun s1 =>
      .ok { s1 with stakingStartTime := Function.update s1.stakingStartTime caller now })

/-- `updateRewardRate(newRate)`: owner-only, capped at 1000 basis points. -/
def updateRewardRate (s : TokenState) (caller newRate : Nat) : Except TokenErr TokenState :=
  if caller ≠ s.owner then .error .notOwner
  else if 1000 < newRate then .error .rateTooHigh
  else .ok { s with rewardRate := newRate }

/-- `pause()`: owner-only; `Pausable._pause` itself requires the not-paused state. -/
def pause (s : TokenState) (caller : Addr) : Except TokenErr TokenState :=
  if caller ≠ s.owner then .error .notOwner
  else if s.paused then .error .enforcedPause
  else .ok { s with paused := true }

/-- `unpause()`: owner-only; `Pausable._unpause` requires the paused state. -/
def unpause (s : TokenState) (caller : Addr) : Except TokenErr TokenState :=
  if caller ≠ s.owner then .error .notOwner
  else if s.paused then .ok { s with paused := false }
  else .error .expectedPause

/-- `mint(to, amount)`: owner-only, requires `totalSupply + amount <= MAX_SUPPLY`
(checked before `_mint`, hence before the zero-receiver and pause checks). -/
def mint (s : TokenState) (caller toAddr amount : Nat) : Except TokenErr TokenState :=
  if caller ≠ s.owner then .error .notOwner
  else if MAX_SUPPLY < s.totalSupply + amount then .error .supplyCapExceeded
  else erc20_mint s toAddr amount

/-- Projection out of a successful `Except` result (a default for the error case,
never hit in the concrete uses below, all of which succeed by `rfl`). -/
def getOk {ε α : Type} (e : Except ε α) (d : α) : α :=
  match e with
  | .ok a => a
  | .error _ => d

/-- Boolean success test for an `Except` result. -/
def okB {ε α : Type} (e : Except ε α) : Bool :=
  match e with
  | .ok _ => true
  | .error _ => false

/-- One invocation of a `NexusVerseToken` external function: `msg.sender`,
`block.timestamp` and the declared arguments. -/
inductive TokenOp where
  | transfer (caller time toAddr value : Nat)
  | burn (caller time value : Nat)
  | mint (caller time toAddr value : Nat)
  | stake (caller time amount : Nat)
  | unstake (caller time amount : Nat)
  | claimRewards (caller time : Nat)
  | pause (caller time : Nat)
  | unpause (caller time : Nat)
  | updateRewardRate (caller time newRate : Nat)
  deriving Repr, DecidableEq

/-- `msg.sender` of a token operation. -/
def TokenOp.caller : TokenOp → Addr
  | .transfer c _ _ _ => c
  | .burn c _ _ => c
  | .mint c _ _ _ => c
  | .stake c _ _ => c
  | .unstake c _ _ => c
  | .claimRewards c _ => c
  | .pause c _ => c
  | .unpause c _ => c
  | .updateRewardRate c _ _ => c

/-- `block.timestamp` of a token operation. -/
def TokenOp.time : TokenOp → Nat
  | .transfer _ t _ _ => t
  | .burn _ t _ => t
  | .mint _ t _ _ => t
  | .stake _ t _ => t
  | .unstake _ t _ => t
  | .claimRewards _ t => t
  | .pause _ t => t
  | .unpause _ t => t
  | .updateRewardRate _ t _ => t

/-- Dispatch a token operation to its embedded function. -/
def applyTokenOp (s : TokenState) : TokenOp → Except TokenErr TokenState
  | .transfer c _ a v => transfer s c a v
  | .burn c _ v => burn s c v
  | .mint c _ a v => mint s c a v
  | .stake c t v => stake s c v t
  | .unstake c t v => unstake s c v t
  | .claimRewards c t => claimRewards s c t
  | .pause c _ => pause s c
  | .unpause c _ => unpause s c
  | .updateRewardRate c _ r => updateRewardRate s c r

/-- Execute a list of token operations, all of which must succeed; callers
must be nonzero addresses and timestamps non-decreasing.  A reverted call
leaves the state unchanged on chain, so restricting traces to successful
calls loses no reachable states. -/
def execTokTrace : TokenState → Nat → List TokenOp → Option TokenState
  | s, _, [] => some s
  | s, clock, op :: ops =>
    if op.caller = 0 ∨ op.time < clock then none
    else
      match applyTokenOp s op with
      | .error _ => none
      | .ok s1 => execTokTrace s1 op.time ops

/-- A token-ledger state reachable from deployment by a sequence of
successful external calls. -/
def TokenReachable (s : TokenState) : Prop :=
  ∃ deployer ops, deployer ≠ 0 ∧ deployer ≠ poolAddr ∧
    execTokTrace (initialTokenState deployer) 0 ops = some s

/-- A sequence of successful `transfer` / `stake` / `unstake` calls (the
operations named by the conservation property), with all participating
addresses drawn from the set `S`. -/
inductive ConsStepsAny (S : Finset Addr) : TokenState → TokenState → Prop where
  | refl (s : TokenState) : ConsStepsAny S s s
  | transferStep (s s1 s2 : TokenState) (c a v : Nat) (hc : c ∈ S) (ha : a ∈ S)
      (h : transfer s c a v = .ok s1) (hrest : ConsStepsAny S s1 s2) : ConsStepsAny S s s2
  | stakeStep (s s1 s2 : TokenState) (c v t : Nat) (hc : c ∈ S)
      (h : stake s c v t = .ok s1) (hrest : ConsStepsAny S s1 s2) : ConsStepsAny S s s2
  | unstakeStep (s s1 s2 : TokenState) (c v t : Nat) (hc : c ∈ S)
      (h : unstake s c v t = .ok s1) (hrest : ConsStepsAny S s1 s2) : ConsStepsAny S s s2

/-- Like `ConsStepsAny`, but each `stake`/`unstake` settles a zero pending
reward at its point of execution (as when it runs at the same instant as
the caller's checkpoint), so no reward tokens are minted along the way. -/
inductive ConsStepsZero (S : Finset Addr) : TokenState → TokenState → Prop where
  | refl (s : TokenState) : ConsStepsZero S s s
  | transferStep (s s1 s2 : TokenState) (c a v : Nat) (hc : c ∈ S) (ha : a ∈ S)
      (h : transfer s c a v = .ok s1) (hrest : ConsStepsZero S s1 s2) : ConsStepsZero S s s2
  | stakeStep (s s1 s2 : TokenState) (c v t : Nat) (hc : c ∈ S)
      (hz : calculateRewards s c t = 0)
      (h : stake s c v t = .ok s1) (hrest : ConsStepsZero S s1 s2) : ConsStepsZero S s s2
  | unstakeStep (s s1 s2 : TokenState) (c v t : Nat) (hc : c ∈ S)
      (hz : calculateRewards s c t = 0)
      (h : unstake s c v t = .ok s1) (hrest : ConsStepsZero S s1 s2) : ConsStepsZero S s s2

/-! ## The identity registry (`NexusVerseIdentity`) -/

/-- One identity record (`struct Identity`); `identityHash` is the `bytes32`
commitment as a `Nat` (0 is the zero hash). -/
structure Identity where
  identityHash : Nat
  createdAt : Nat
  isVerified : Bool
  isActive : Bool
  metadata : String
  deriving Repr, DecidableEq

/-- The all-defaults record a Solidity mapping returns for an absent key. -/
def emptyIdentity : Identity :=
  { identityHash := 0, createdAt := 0, isVerified := false, isActive := false, metadata := "" }

/-- One audit-trail entry (`struct Verification`). -/
structure Verification where
  verifier : Addr
  timestamp : Nat
  isValid : Bool
  reason : String
  deriving Repr, DecidableEq

/-- State of `NexusVerseIdentity`. -/
structure IdState where
  identities : Addr → Identity
  verifications : Addr → List Verification
  identityHashToAddress : Nat → Addr
  authorizedVerifiers : Addr → Bool
  owner : Addr

/-- Typed revert reasons of the identity contract, named after the spec's
error taxonomy; each constructor corresponds to one `require`/OZ revert site. -/
inductive IdErr where
  /-- "Invalid identity hash". -/
  | invalidHash
  /-- "Identity already exists". -/
  | alreadyRegistered
  /-- "Identity hash already used". -/
  | hashAlreadyUsed
  /-- "Not authorized verifier". -/
  | notAuthorizedVerifier
  /-- "Identity does not exist" (the `identityExists` modifier). -/
  | identityNotFound
  /-- "Identity already verified". -/
  | alreadyVerified
  /-- OZ `OwnableUnauthorizedAccount` (the `onlyOwner` modifier). -/
  | notOwner
  /-- "Invalid verifier address". -/
  | invalidAddress
  /-- "Verifier already authorized". -/
  | alreadyAuthorized
  /-- "Verifier not authorized". -/
  | notAuthorized
  /-- "Cannot revoke owner". -/
  | cannotRevokeOwner
  /-- OZ `OwnableInvalidOwner` (`transferOwnership` to the zero address). -/
  | invalidOwner
  deriving Repr, DecidableEq

/-- Post-constructor state: deployer is the owner and the first authorized verifier. -/
def initialIdState (deployer : Addr) : IdState where
  identities := fun _ => emptyIdentity
  verifications := fun _ => []
  identityHashToAddress := fun _ => 0
  authorizedVerifiers := fun a => a == deployer
  owner := deployer

/-- `registerIdentity(identityHash, metadata)` with `msg.sender = caller`,
`block.timestamp = now`: nonzero hash, caller has no active identity, hash
not currently bound; creates the record and the reverse-index entry. -/
def registerIdentity (s : IdState) (caller hash : Nat) (metadata : String) (now : Nat) :
    Except IdErr IdState :=
  if hash = 0 then .error .invalidHash
  else if (s.identities caller).isActive then .error .alreadyRegistered
  else if s.identityHashToAddress hash ≠ 0 then .error .hashAlreadyUsed
  else .ok { s with
    identities := Function.update s.identities caller
      { identityHash := hash, createdAt := now, isVerified := false, isActive := true,
        metadata := metadata }
    identityHashToAddress := Function.update s.identityHashToAddress hash caller }

/-- `verifyIdentity(user, isValid, reason)`: `onlyAuthorizedVerifier`, then
`identityExists(user)`, then the not-already-verified require; sets
`isVerified := isValid` and appends an audit record. -/
def verifyIdentity (s : IdState) (caller user : Addr) (isValid : Bool) (reason : String)
    (now : Nat) : Except IdErr IdState :=
  if s.authorizedVerifiers caller = false then .error .notAuthorizedVerifier
  else if (s.identities user).isActive = false then .error .identityNotFound
  else if (s.identities user).isVerified then .error .alreadyVerified
  else .ok { s with
    identities := Function.update s.identities user
      { s.identities user with isVerified := isValid }
    verifications := Function.update s.verifications user
      (s.verifications user ++ [Verification.mk caller now isValid reason]) }

/-- `revokeIdentity(user)`: `onlyOwner`, then `identityExists(user)`; clears
`isActive` and deletes the reverse-index entry for the user's hash
(leaving `isVerified` as it was). -/
def revokeIdentity (s : IdState) (caller user : Addr) : Except IdErr IdState :=
  if caller ≠ s.owner then .error .notOwner
  else if (s.identities user).isActive = false then .error .identityNotFound
  else .ok { s with
    identities := Function.update s.identities user
      { s.identities user with isActive := false }
    identityHashToAddress :=
      Function.update s.identityHashToAddress ((s.identities user).identityHash) 0 }

/-- `updateMetadata(metadata)` with `msg.sender = caller`: requires an active
identity for the caller. -/
def updateMetadata (s : IdState) (caller : Addr) (metadata : String) : Except IdErr IdState :=
  if (s.identities caller).isActive = false then .error .identityNotFound
  else .ok { s with
    identities := Function.update s.identities caller
      { s.identities caller with metadata := metadata } }

/-- `authorizeVerifier(verifier)`: `onlyOwner`, nonzero address, not already authorized. -/
def authorizeVerifier (s : IdState) (caller verifier : Addr) : Except IdErr IdState :=
  if caller ≠ s.owner then .error .notOwner
  else if verifier = 0 then .error .invalidAddress
  else if s.authorizedVerifiers verifier then .error .alreadyAuthorized
  else .ok { s with authorizedVerifiers := Function.update s.authorizedVerifiers verifier true }

/-- `revokeVerifier(verifier)`: `onlyOwner`, currently authorized, not the owner. -/
def revokeVerifier (s : IdState) (caller verifier : Addr) : Except IdErr IdState :=
  if caller ≠ s.owner then .error .notOwner
  else if s.authorizedVerifiers verifier = false then .error .notAuthorized
  else if verifier = s.owner then .error .cannotRevokeOwner
  else .ok { s with authorizedVerifiers := Function.update s.authorizedVerifiers verifier false }

/-- OZ `Ownable.transferOwnership(newOwner)`: `onlyOwner`, nonzero new owner. -/
def transferOwnership (s : IdState) (caller newOwner : Addr) : Except IdErr IdState :=
  if caller ≠ s.owner then .error .notOwner
  else if newOwner = 0 then .error .invalidOwner
  else .ok { s with owner := newOwner }

/-- OZ `Ownable.renounceOwnership()`: `onlyOwner`, sets the owner to the zero address. -/
def renounceOwnership (s : IdState) (caller : Addr) : Except IdErr IdState :=
  if caller ≠ s.owner then .error .notOwner
  else .ok { s with owner := 0 }

/-- `hasVerifiedIdentity(user)`: `isActive && isVerified`. -/
def hasVerifiedIdentity (s : IdState) (user : Addr) : Bool :=
  (s.identities user).isActive && (s.identities user).isVerified

/-- `getAddressByIdentityHash(identityHash)`. -/
def getAddressByIdentityHash (s : IdState) (hash : Nat) : Addr :=
  s.identityHashToAddress hash

/-- One invocation of a `NexusVerseIdentity` external function. -/
inductive IdOp where
  | register (caller hash : Nat) (metadata : String) (now : Nat)
  | verify (caller user : Addr) (isValid : Bool) (reason : String) (now : Nat)
  | revoke (caller user : Addr)
  | updateMeta (caller : Addr) (metadata : String)
  | authorize (caller verifier : Addr)
  | unauthorize (caller verifier : Addr)
  | transferOwn (caller newOwner : Addr)
  | renounceOwn (caller : Addr)

/-- `msg.sender` of an identity operation. -/
def IdOp.caller : IdOp → Addr
  | .register c _ _ _ => c
  | .verify c _ _ _ _ => c
  | .revoke c _ => c
  | .updateMeta c _ => c
  | .authorize c _ => c
  | .unauthorize c _ => c
  | .transferOwn c _ => c
  | .renounceOwn c => c

/-- Dispatch an identity operation to its embedded function. -/
def applyIdOp (s : IdState) : IdOp → Except IdErr IdState
  | .register c h m t => registerIdentity s c h m t
  | .verify c u b r t => verifyIdentity s c u b r t
  | .revoke c u => revokeIdentity s c u
  | .updateMeta c m => updateMetadata s c m
  | .authorize c v => authorizeVerifier s c v
  | .unauthorize c v => revokeVerifier s c v
  | .transferOwn c o => transferOwnership s c o
  | .renounceOwn c => renounceOwnership s c

/-- Execute a list of identity operations, all of which must succeed; callers
must be nonzero addresses.  A reverted call leaves the state unchanged on
chain, so restricting traces to successful calls loses no reachable states. -/
def execIdTrace : IdState → List IdOp → Option IdState
  | s, [] => some s
  | s, op :: ops =>
    if op.caller = 0 then none
    else
      match applyIdOp s op with
      | .error _ => none
      | .ok s1 => execIdTrace s1 ops

/-- An identity-registry state reachable from deployment by a sequence of
successful external calls. -/
def IdReachable (s : IdState) : Prop :=
  ∃ deployer ops, deployer ≠ 0 ∧ execIdTrace (initialIdState deployer) ops = some s

/-- The inductive invariant behind identity uniqueness: the zero address never
holds an active identity, and the reverse index maps every active identity's
hash back to its holder. -/
def IdInv (s : IdState) : Prop :=
  (s.identities 0).isActive = false ∧
    ∀ a : Addr, (s.identities a).isActive = true →
      s.identityHashToAddress ((s.identities a).identityHash) = a

/-! ## Concrete states used by counterexamples and witnesses

All are built by executing the embedded operations from the deployment
state (deployer = address 2); every `getOk` below extracts a call that
succeeds by `rfl`. -/

/-- The token ledger as deployed by address 2. -/
def tok0 : TokenState := initialTokenState 2

/-- Owner mints up to exactly `MAX_SUPPLY`, stakes 1 billion tokens, then lets
one year elapse and claims rewards: the reward mint has no cap check. -/
def c1ops : List TokenOp :=
  [.mint 2 0 2 (9000000000 * 10 ^ 18),
   .stake 2 0 (1000000000 * 10 ^ 18),
   .claimRewards 2 31536000]

/-- The (reachable) state after `c1ops`: `totalSupply` exceeds `MAX_SUPPLY`. -/
def c1state : TokenState := (execTokTrace tok0 0 c1ops).getD tok0

/-- Owner mints up to the cap and stakes 9 billion tokens at time 0. -/
def c2ops : List TokenOp :=
  [.mint 2 0 2 (9000000000 * 10 ^ 18),
   .stake 2 0 (9000000000 * 10 ^ 18)]

/-- The (reachable) state after `c2ops`, used to exercise a partial `unstake`
ten years after the staking checkpoint. -/
def c2pre : TokenState := (execTokTrace tok0 0 c2ops).getD tok0

/-- The state right after that partial `unstake` of half the stake. -/
def c2post : TokenState := getOk (unstake c2pre 2 (4500000000 * 10 ^ 18) 315360000) tok0

/-- Identity registry as deployed by address 2. -/
def idt0 : IdState := initialIdState 2

/-- Address 3 registers identity hash 7. -/
def c3s1 : IdState := getOk (registerIdentity idt0 3 7 "m1" 0) idt0

/-- The owner then revokes address 3's identity (freeing hash 7's reverse-index entry). -/
def c3s2 : IdState := getOk (revokeIdentity c3s1 2 3) idt0

/-- The token ledger paused by its owner right after deployment. -/
def c4state : TokenState := getOk (pause tok0 2) tok0

/-- Address 2 stakes 2 tokens at time 0. -/
def c5s1 : TokenState := getOk (stake tok0 2 (2 * 10 ^ 18) 0) tok0

/-- One year later address 2 stakes one more token: the pending reward on the
earlier stake is settled by minting inside `stake`. -/
def c5s2 : TokenState := getOk (stake c5s1 2 (10 ^ 18) 31536000) tok0

/-- Immediately (same instant) unstaking that one token. -/
def c6s3 : TokenState := getOk (unstake c5s2 2 (10 ^ 18) 31536000) tok0

/-- A plain transfer of 5 tokens from address 2 to address 3. -/
def c5w : TokenState := getOk (transfer tok0 2 3 (5 * 10 ^ 18)) tok0

/-- Reachable state with `rewardRate = 500` and a fresh stake of 1000 tokens at
time 0 (the end-to-end reward scenario). -/
def c7s : TokenState :=
  getOk (stake (getOk (updateRewardRate tok0 2 500) tok0) 2 (1000 * 10 ^ 18) 0) tok0

/-- Two distinct addresses register distinct identity hashes. -/
def c9ops : List IdOp := [.register 3 7 "a" 0, .register 4 9 "b" 0]

/-- The (reachable) registry state after `c9ops`. -/
def c9w : IdState := (execIdTrace idt0 c9ops).getD idt0

/-! ## Helper lemmas (shared inversion principles for the embedded operations) -/

theorem erc20_transfer_inv {s s' : TokenState} {f t v : Nat}
    (h : erc20_transfer s f t v = .ok s') :
    f ≠ 0 ∧ t ≠ 0 ∧ s.paused = false ∧ v ≤ s.balances f ∧
      s' = { s with balances := transferBalances s.balances f t v } := by
  unfold erc20_transfer erc20_update at h
  by_cases hf : f = 0
  · simp [hf] at h
  · by_cases ht : t = 0
    · simp [hf, ht] at h
    · by_cases hp : s.paused
      · simp [hf, ht, hp] at h
      · by_cases hb : s.balances f < v
        · simp [hf, ht, hp, hb, bindE] at h
        · simp [hf, ht, hp, hb, bindE] at h
          have hp' : s.paused = false := by simpa using hp
          exact ⟨hf, ht, hp', by omega, by rw [← h]; simp [transferBalances, hp']⟩

theorem erc20_mint_inv {s s' : TokenState} {a v : Nat}
    (h : erc20_mint s a v = .ok s') :
    a ≠ 0 ∧ s.paused = false ∧
      s' = { s with totalSupply := s.totalSupply + v,
                    balances := Function.update s.balances a (s.balances a + v) } := by
  unfold erc20_mint erc20_update at h
  by_cases ha : a = 0
  · simp [ha] at h
  · by_cases hp : s.paused
    · simp [ha, hp] at h
    · simp [ha, hp, bindE] at h
      have hp' : s.paused = false := by simpa using hp
      exact ⟨ha, hp', by rw [← h]; simp [hp']⟩

theorem erc20_update_paused {s : TokenState} (hp : s.paused = true) (f t v : Nat) :
    erc20_update s f t v = .error .enforcedPause := by
  simp [erc20_update, hp]

theorem erc20_mint_paused {s : TokenState} (hp : s.paused = true) (a v : Nat) :
    okB (erc20_mint s a v) = false := by
  unfold erc20_mint
  by_cases ha : a = 0
  · simp [ha, okB]
  · simp [ha, erc20_update_paused hp, okB]

theorem erc20_burn_paused {s : TokenState} (hp : s.paused = true) (a v : Nat) :
    okB (erc20_burn s a v) = false := by
  unfold erc20_burn
  by_cases ha : a = 0
  · simp [ha, okB]
  · simp [ha, erc20_update_paused hp, okB]

theorem erc20_transfer_paused {s : TokenState} (hp : s.paused = true) (f t v : Nat) :
    okB (erc20_transfer s f t v) = false := by
  unfold erc20_transfer
  by_cases hf : f = 0
  · simp [hf, okB]
  · by_cases ht : t = 0
    · simp [hf, ht, okB]
    · simp [hf, ht, erc20_update_paused hp, okB]

theorem stake_paused {s : TokenState} (hp : s.paused = true) (c v t : Nat) :
    okB (stake s c v t) = false := by
  unfold stake
  by_cases hv : v = 0
  · simp [hv, okB]
  · by_cases hb : s.balances c < v
    · simp [hv, hb, okB]
    · by_cases hr : 0 < calculateRewards s c t
      · cases hm : erc20_mint s c (calculateRewards s c t) with
        | error e => simp [hv, hb, hr, hm, bindE, okB]
        | ok s1 =>
          have hfalse := erc20_mint_paused hp c (calculateRewards s c t)
          rw [hm] at hfalse
          simp [okB] at hfalse
      · cases htr : erc20_transfer s c poolAddr v with
        | error e => simp [hv, hb, hr, htr, bindE, okB]
        | ok s2 =>
          have hfalse := erc20_transfer_paused hp c poolAddr v
          rw [htr] at hfalse
          simp [okB] at hfalse

theorem unstake_paused {s : TokenState} (hp : s.paused = true) (c v t : Nat) :
    okB (unstake s c v t) = false := by
  unfold unstake
  by_cases hv : v = 0
  · simp [hv, okB]
  · by_cases hb : s.stakedAmount c < v
    · simp [hv, hb, okB]
    · by_cases hr : 0 < calculateRewards s c t
      · cases hm : erc20_mint s c (calculateRewards s c t) with
        | error e => simp [hv, hb, hr, hm, bindE, okB]
        | ok s1 =>
          have hfalse := erc20_mint_paused hp c (calculateRewards s c t)
          rw [hm] at hfalse
          simp [okB] at hfalse
      · cases htr : erc20_transfer
            { s with
              stakedAmount := Function.update s.stakedAmount c (s.stakedAmount c - v)
              totalStaked := s.totalStaked - v }
            poolAddr c v with
        | error e => simp [hv, hb, hr, htr, bindE, okB]
        | ok s2 =>
          have hfalse := erc20_transfer_paused (s := { s with
              stakedAmount := Function.update s.stakedAmount c (s.stakedAmount c - v)
              totalStaked := s.totalStaked - v }) hp poolAddr c v
          rw [htr] at hfalse
          simp [okB] at hfalse

theorem claimRewards_paused {s : TokenState} (hp : s.paused = true) (c t : Nat) :
    okB (claimRewards s c t) = false := by
  unfold claimRewards
  by_cases hr : calculateRewards s c t = 0
  · simp [hr, okB]
  · cases hm : erc20_mint s c (calculateRewards s c t) with
    | error e => simp [hr, hm, bindE, okB]
    | ok s1 =>
      have hfalse := erc20_mint_paused hp c (calculateRewards s c t)
      rw [hm] at hfalse
      simp [okB] at hfalse

theorem mint_paused {s : TokenState} (hp : s.paused = true) (c a v : Nat) :
    okB (mint s c a v) = false := by
  unfold mint
  by_cases hc : c = s.owner
  · by_cases hcap : MAX_SUPPLY < s.totalSupply + v
    · simp [hc, hcap, okB]
    · simp only [hc, hcap, if_neg, ite_false, if_false]
      simpa using erc20_mint_paused hp a v
  · simp [hc, okB]

/-! ## C4: pause enforcement -/

/-- C4 (corrected): while the ledger is paused, every balance-mutating
operation — transfer, stake, unstake, burn, claimRewards AND `mint` (the
`_update` override dispatches through `ERC20Pausable`, so owner mints are
blocked too, contrary to the claim) — fails and, the call reverting, changes
no state; the administrative operations `updateRewardRate` and `unpause`
still succeed for the owner. -/
theorem c4_pause_enforcement (s : TokenState) (hp : s.paused = true) :
    (∀ c a v, okB (transfer s c a v) = false) ∧
    (∀ c v, okB (burn s c v) = false) ∧
    (∀ c v t, okB (stake s c v t) = false) ∧
    (∀ c v t, okB (unstake s c v t) = false) ∧
    (∀ c t, okB (claimRewards s c t) = false) ∧
    (∀ c a v, okB (mint s c a v) = false) ∧
    (∀ r, r ≤ 1000 → okB (updateRewardRate s s.owner r) = true) ∧
    okB (unpause s s.owner) = true := by
  refine ⟨fun c a v => ?_, fun c v => ?_, fun c v t => stake_paused hp c v t,
    fun c v t => unstake_paused hp c v t, fun c t => claimRewards_paused hp c t,
    fun c a v => mint_paused hp c a v, fun r hr => ?_, ?_⟩
  · exact erc20_transfer_paused hp c a v
  · exact erc20_burn_paused hp c v
  · simp [updateRewardRate, Nat.not_lt.mpr hr, okB]
  · simp [unpause, hp, okB]

/-- C4 counterexample: in the concrete reachable paused state `c4state`, even
the owner's `mint` of 5 units to address 3 (well under the supply cap)
reverts with the pause error — the claim asserts it would still succeed. -/
theorem c4_counterexample :
    c4state.paused = true ∧ c4state.owner = 2 ∧
      c4state.totalSupply + 5 ≤ MAX_SUPPLY ∧
      mint c4state 2 3 5 = .error .enforcedPause :=
  ⟨rfl, rfl, by decide, rfl⟩

/-- Witness for `c4_pause_enforcement` at the concrete paused state `c4state`. -/
theorem c4_pause_enforcement_witness :
    okB (transfer c4state 2 3 5) = false ∧
      okB (stake c4state 2 5 0) = false ∧
      okB (mint c4state 2 3 5) = false ∧
      okB (updateRewardRate c4state c4state.owner 200) = true ∧
      okB (unpause c4state c4state.owner) = true :=
  ⟨(c4_pause_enforcement c4state rfl).1 2 3 5,
    (c4_pause_enforcement c4state rfl).2.2.1 2 5 0,
    (c4_pause_enforcement c4state rfl).2.2.2.2.2.1 2 3 5,
    (c4_pause_enforcement c4state rfl).2.2.2.2.2.2.1 200 (by decide),
    (c4_pause_enforcement c4state rfl).2.2.2.2.2.2.2⟩

/-! ## C1: the supply cap -/

/-- C1 (corrected): a successful `mint` always leaves `totalSupply ≤ MAX_SUPPLY`,
and an owner mint that would exceed the cap reverts with `SupplyCapExceeded`
(the revert leaving all state unchanged).  The cap does NOT hold over all
reachable states, because the reward mints inside `stake`/`unstake`/
`claimRewards` perform no cap check — see `c1_counterexample`. -/
theorem c1_mint_cap :
    (∀ (s s' : TokenState) (c a v : Nat), mint s c a v = .ok s' →
      s'.totalSupply ≤ MAX_SUPPLY) ∧
    (∀ (s : TokenState) (a v : Nat), MAX_SUPPLY < s.totalSupply + v →
      mint s s.owner a v = .error .supplyCapExceeded) := by
  constructor
  · intro s s' c a v h
    unfold mint at h
    by_cases hc : c = s.owner
    · by_cases hcap : MAX_SUPPLY < s.totalSupply + v
      · simp [hc, hcap] at h
      · simp [hc, hcap] at h
        obtain ⟨-, -, rfl⟩ := erc20_mint_inv h
        simpa using Nat.le_of_not_lt hcap
    · simp [hc] at h
  · intro s a v hcap
    simp [mint, hcap]

/-- C1 counterexample: the claim "for every reachable state, `totalSupply`
never exceeds `MAX_SUPPLY`" is false — after minting up to exactly the cap,
staking, and claiming rewards one year later (`c1ops`), the reward mint
pushes `totalSupply` to `MAX_SUPPLY + 10^25`. -/
theorem c1_counterexample :
    ¬ (∀ s : TokenState, TokenReachable s → s.totalSupply ≤ MAX_SUPPLY) := by
  intro h
  have hr : TokenReachable c1state := ⟨2, c1ops, by decide, by decide, rfl⟩
  exact absurd (h c1state hr) (by decide)

/-- Witness for `c1_mint_cap` at concrete inputs. -/
theorem c1_mint_cap_witness :
    (getOk (mint tok0 2 3 5) tok0).totalSupply ≤ MAX_SUPPLY ∧
      mint tok0 tok0.owner 3 MAX_SUPPLY = .error .supplyCapExceeded :=
  ⟨c1_mint_cap.1 tok0 (getOk (mint tok0 2 3 5) tok0) 2 3 5 rfl,
    c1_mint_cap.2 tok0 3 MAX_SUPPLY (by decide)⟩

/-! ## C7: the reward formula -/

/-- C7 (confirmed): `calculateRewards` is a pure read computing
`stakedAmount * rewardRate * elapsed / (secondsPerYear * 10000)` with floor
division, returning 0 for an address with no stake; and in the concrete
reachable scenario `c7s` (1000 tokens staked at 500 basis points), exactly
one year of elapsed time yields exactly 50 tokens. -/
theorem c7_calculateRewards_spec :
    (∀ (s : TokenState) (u t : Nat),
      calculateRewards s u t =
        s.stakedAmount u * s.rewardRate * (t - s.stakingStartTime u) / (31536000 * 10000)) ∧
    (∀ (s : TokenState) (u t : Nat), s.stakedAmount u = 0 → calculateRewards s u t = 0) ∧
    calculateRewards c7s 2 31536000 = 50 * 10 ^ 18 := by
  refine ⟨fun s u t => ?_, fun s u t h => ?_, by decide⟩
  · unfold calculateRewards
    by_cases h : s.stakedAmount u = 0
    · simp [h]
    · simp [h]
  · simp [calculateRewards, h]

/-- Witness for `c7_calculateRewards_spec` at concrete inputs (address 5 has
no stake in the deployment state). -/
theorem c7_calculateRewards_spec_witness :
    calculateRewards tok0 5 99 = 0 :=
  c7_calculateRewards_spec.2.1 tok0 5 99 rfl

/-! ## C8: verifier authorization gating -/

/-- C8 (confirmed): `verifyIdentity` called by any address outside the
authorized-verifier set reverts with `NotAuthorizedVerifier` (the
`onlyAuthorizedVerifier` modifier runs first), so no state — in particular
no `isVerified` flag — is mutated. -/
theorem c8_verify_requires_authorized (s : IdState) (caller user : Addr) (isValid : Bool)
    (reason : String) (now : Nat) (h : s.authorizedVerifiers caller = false) :
    verifyIdentity s caller user isValid reason now = .error .notAuthorizedVerifier := by
  simp [verifyIdentity, h]

/-- Witness for `c8_verify_requires_authorized`: address 3 is not an
authorized verifier in the deployment state. -/
theorem c8_verify_requires_authorized_witness :
    verifyIdentity idt0 3 3 true "kyc" 0 = .error .notAuthorizedVerifier :=
  c8_verify_requires_authorized idt0 3 3 true "kyc" 0 rfl

/-! ## C10: hasVerifiedIdentity after revocation -/

/-- C10 (confirmed): `hasVerifiedIdentity` conjoins `isActive` with
`isVerified`, so it returns false for any address whose identity is inactive;
a successful `revokeIdentity` clears `isActive` but leaves the stored
`isVerified` flag untouched, and `hasVerifiedIdentity` is false afterwards. -/
theorem c10_hasVerified_requires_active :
    (∀ (s : IdState) (u : Addr), (s.identities u).isActive = false →
      hasVerifiedIdentity s u = false) ∧
    (∀ (s s' : IdState) (caller u : Addr), revokeIdentity s caller u = .ok s' →
      (s'.identities u).isVerified = (s.identities u).isVerified ∧
        (s'.identities u).isActive = false ∧ hasVerifiedIdentity s' u = false) := by
  constructor
  · intro s u h
    simp [hasVerifiedIdentity, h]
  · intro s s' caller u h
    unfold revokeIdentity at h
    by_cases hc : caller = s.owner
    · by_cases ha : (s.identities u).isActive = false
      · simp [hc, ha] at h
      · simp [hc, ha] at h
        subst h
        simp [hasVerifiedIdentity]
    · simp [hc] at h

/-- Witness for `c10_hasVerified_requires_active` at the concrete revocation
`c3s1 → c3s2` (address 3's identity revoked by the owner). -/
theorem c10_hasVerified_requires_active_witness :
    (c3s2.identities 3).isVerified = (c3s1.identities 3).isVerified ∧
      (c3s2.identities 3).isActive = false ∧ hasVerifiedIdentity c3s2 3 = false :=
  c10_hasVerified_requires_active.2 c3s1 c3s2 2 3 rfl

/-! ## C2: reward monotonicity and checkpoint resets -/

theorem stake_startTime {s s' : TokenState} {c v t : Nat} (h : stake s c v t = .ok s') :
    s'.stakingStartTime c = t := by
  unfold stake at h
  by_cases hv : v = 0
  · simp [hv] at h
  · by_cases hb : s.balances c < v
    · simp [hv, hb] at h
    · simp [hv, hb] at h
      cases hm : (if 0 < calculateRewards s c t then
          erc20_mint s c (calculateRewards s c t) else .ok s) with
      | error e => rw [hm] at h; simp [bindE] at h
      | ok s1 =>
        rw [hm] at h
        simp only [bindE] at h
        cases htr : erc20_transfer s1 c poolAddr v with
        | error e => rw [htr] at h; simp [bindE] at h
        | ok s2 =>
          rw [htr] at h
          simp [bindE] at h
          rw [← h]
          simp

theorem claimRewards_startTime {s s' : TokenState} {c t : Nat}
    (h : claimRewards s c t = .ok s') : s'.stakingStartTime c = t := by
  unfold claimRewards at h
  by_cases hr : calculateRewards s c t = 0
  · simp [hr] at h
  · simp [hr] at h
    cases hm : erc20_mint s c (calculateRewards s c t) with
    | error e => rw [hm] at h; simp [bindE] at h
    | ok s1 =>
      rw [hm] at h
      simp [bindE] at h
      rw [← h]
      simp

theorem calculateRewards_at_checkpoint (s : TokenState) (u : Addr) (t : Nat)
    (h : s.stakingStartTime u = t) : calculateRewards s u t = 0 := by
  unfold calculateRewards
  by_cases h0 : s.stakedAmount u = 0
  · simp [h0]
  · simp [h0, h]

/-- C2 (corrected): for a fixed state (hence fixed `stakedAmount`,
`rewardRate`, and checkpoint), `calculateRewards` is non-decreasing in the
evaluation time, and it is exactly 0, at the same instant, right after a
successful `stake` or `claimRewards` (both reset the `stakingStartTime`
checkpoint to "now").  A successful `unstake`, however, does NOT move the
checkpoint, so the pending reward on the remaining stake is generally
nonzero at the same instant — see `c2_counterexample`. -/
theorem c2_reward_monotone_reset :
    (∀ (s : TokenState) (u t1 t2 : Nat), t1 ≤ t2 →
      calculateRewards s u t1 ≤ calculateRewards s u t2) ∧
    (∀ (s s' : TokenState) (c v t : Nat), stake s c v t = .ok s' →
      calculateRewards s' c t = 0) ∧
    (∀ (s s' : TokenState) (c t : Nat), claimRewards s c t = .ok s' →
      calculateRewards s' c t = 0) := by
  refine ⟨fun s u t1 t2 h12 => ?_,
    fun s s' c v t h => calculateRewards_at_checkpoint s' c t (stake_startTime h),
    fun s s' c t h => calculateRewards_at_checkpoint s' c t (claimRewards_startTime h)⟩
  unfold calculateRewards
  by_cases h0 : s.stakedAmount u = 0
  · simp [h0]
  · simp only [h0, if_false, ite_false]
    apply Nat.div_le_div_right
    have hsub : t1 - s.stakingStartTime u ≤ t2 - s.stakingStartTime u := by omega
    exact Nat.mul_le_mul_left _ hsub

/-- C2 counterexample: `c2pre → c2post` is a successful partial `unstake`
executed ten years after the staking checkpoint; at the very same instant
`calculateRewards` returns 450 million tokens (4.5 × 10^26 units), not
(near) zero, because `unstake` left `stakingStartTime` untouched. -/
theorem c2_counterexample :
    unstake c2pre 2 (4500000000 * 10 ^ 18) 315360000 = .ok c2post ∧
      calculateRewards c2post 2 315360000 = 450000000 * 10 ^ 18 ∧
      (450000000 * 10 ^ 18 : Nat) ≠ 0 :=
  ⟨rfl, rfl, by decide⟩

/-- Witness for `c2_reward_monotone_reset` at concrete inputs. -/
theorem c2_reward_monotone_reset_witness :
    calculateRewards c2pre 2 100 ≤ calculateRewards c2pre 2 200 ∧
      calculateRewards c5s1 2 0 = 0 :=
  ⟨c2_reward_monotone_reset.1 c2pre 2 100 200 (by decide),
    c2_reward_monotone_reset.2.1 tok0 c5s1 2 (2 * 10 ^ 18) 0
      (show stake tok0 2 (2 * 10 ^ 18) 0 = Except.ok c5s1 from rfl)⟩

/-! ## C3: identity-hash reuse after revocation -/

/-- C3 (corrected): while a nonzero hash is bound in the reverse index,
`registerIdentity` with that hash fails with `HashAlreadyUsed`; but
`revokeIdentity` deletes the reverse-index entry for the revoked identity's
hash, so a hash freed by revocation IS reusable by a new registration — the
claim's "including an entry whose identity has since been revoked" is false
on the code (see `c3_counterexample`). -/
theorem c3_hash_binding :
    (∀ (s : IdState) (c h : Nat) (m : String) (t : Nat), h ≠ 0 →
      s.identityHashToAddress h ≠ 0 → (s.identities c).isActive = false →
      registerIdentity s c h m t = .error .hashAlreadyUsed) ∧
    (∀ (s s' : IdState) (caller u : Addr), revokeIdentity s caller u = .ok s' →
      s'.identityHashToAddress ((s.identities u).identityHash) = 0) := by
  constructor
  · intro s c h m t hh hb ha
    simp [registerIdentity, hh, ha, hb]
  · intro s s' caller u h
    unfold revokeIdentity at h
    by_cases hc : caller = s.owner
    · by_cases ha : (s.identities u).isActive = false
      · simp [hc, ha] at h
      · simp [hc, ha] at h
        rw [← h]
        simp
    · simp [hc] at h

/-- C3 counterexample: hash 7 is bound by address 3's registration, that
identity is revoked, and then address 4's `registerIdentity` with the very
same hash 7 succeeds instead of failing with `HashAlreadyUsed`. -/
theorem c3_counterexample :
    okB (registerIdentity idt0 3 7 "m1" 0) = true ∧
      (c3s1.identities 3).identityHash = 7 ∧
      okB (revokeIdentity c3s1 2 3) = true ∧
      okB (registerIdentity c3s2 4 7 "m2" 1) = true :=
  ⟨rfl, rfl, rfl, rfl⟩

/-- Witness for `c3_hash_binding` at concrete inputs (hash 7 bound by
address 3; registration attempt by address 4 while still bound; then the
revocation clearing the binding). -/
theorem c3_hash_binding_witness :
    registerIdentity c3s1 4 7 "m2" 1 = .error .hashAlreadyUsed ∧
      c3s2.identityHashToAddress 7 = 0 :=
  ⟨c3_hash_binding.1 c3s1 4 7 "m2" 1 (by decide) (by decide) rfl,
    c3_hash_binding.2 c3s1 c3s2 2 3 rfl⟩

/-! ## C6: staking reversibility -/

theorem stake_ok_zero_reward {s : TokenState} {c v t : Nat}
    (hz : calculateRewards s c t = 0) (hv : v ≠ 0) (hb : ¬ s.balances c < v)
    (hc : c ≠ 0) (hp : s.paused = false) :
    stake s c v t = .ok { s with
      balances := transferBalances s.balances c poolAddr v,
      stakedAmount := Function.update s.stakedAmount c (s.stakedAmount c + v),
      stakingStartTime := Function.update s.stakingStartTime c t,
      totalStaked := s.totalStaked + v } := by
  unfold stake
  simp [hv, hb, hz, bindE, erc20_transfer, erc20_update, hc, hp, poolAddr, transferBalances]

theorem unstake_ok_zero_reward {s : TokenState} {c v t : Nat}
    (hz : calculateRewards s c t = 0) (hv : v ≠ 0) (hs : ¬ s.stakedAmount c < v)
    (hc : c ≠ 0) (hp : s.paused = false) (hpool : ¬ s.balances poolAddr < v) :
    unstake s c v t = .ok { s with
      balances := transferBalances s.balances poolAddr c v,
      stakedAmount := Function.update s.stakedAmount c (s.stakedAmount c - v),
      totalStaked := s.totalStaked - v } := by
  have hpool' : ¬ s.balances 1 < v := by simpa [poolAddr] using hpool
  unfold unstake
  simp [hv, hs, hz, bindE, erc20_transfer, erc20_update, hc, hp, hpool', poolAddr,
    transferBalances]

/-- C6 (corrected): for a caller with NO pending reward at the moment of the
stake (`calculateRewards = 0` there — e.g. no prior stake, or a checkpoint
equal to "now"), a successful `stake(v)` immediately followed by
`unstake(v)` at the same instant restores the caller's balance and leaves
`totalStaked` at its pre-stake value.  Without that proviso the claim is
false: the stake itself mints the previously accrued reward, so the final
balance strictly exceeds the pre-stake balance — see `c6_counterexample`. -/
theorem c6_stake_unstake_roundtrip (s : TokenState) (c v t : Nat)
    (hc : c ≠ 0) (hcp : c ≠ poolAddr) (hv : 0 < v) (hb : v ≤ s.balances c)
    (hp : s.paused = false) (hz : calculateRewards s c t = 0) :
    ∃ s1 s2, stake s c v t = .ok s1 ∧ unstake s1 c v t = .ok s2 ∧
      s2.balances c = s.balances c ∧ s2.totalStaked = s.totalStaked := by
  have hcp' : c ≠ 1 := by simpa [poolAddr] using hcp
  have h1 := stake_ok_zero_reward (v := v) hz (by omega) (by omega) hc hp
  have hz1 : calculateRewards
      { s with
        balances := transferBalances s.balances c poolAddr v,
        stakedAmount := Function.update s.stakedAmount c (s.stakedAmount c + v),
        stakingStartTime := Function.update s.stakingStartTime c t,
        totalStaked := s.totalStaked + v } c t = 0 :=
    calculateRewards_at_checkpoint _ c t (by simp)
  have h2 := unstake_ok_zero_reward (v := v) hz1 (by omega)
    (by simp) hc hp (by simp [transferBalances, poolAddr, Function.update_apply])
  refine ⟨_, _, h1, h2, ?_, ?_⟩
  · simp [transferBalances, poolAddr, Function.update_apply, hcp', Ne.symm hcp']
    omega
  · simp

/-- C6 counterexample: address 2 already staked 2 tokens a year earlier
(`c5s1`), so its `stake` of one more token mints the accrued reward
(2 × 10^16 units) first; the immediate same-instant `unstake` then leaves
the balance strictly above — not equal to — the pre-stake balance, even
though `totalStaked` is restored.  All side conditions of the claim hold
(positive amount within the balance). -/
theorem c6_counterexample :
    0 < (10 ^ 18 : Nat) ∧ (10 ^ 18 : Nat) ≤ c5s1.balances 2 ∧
      stake c5s1 2 (10 ^ 18) 31536000 = .ok c5s2 ∧
      unstake c5s2 2 (10 ^ 18) 31536000 = .ok c6s3 ∧
      c6s3.totalStaked = c5s1.totalStaked ∧
      c6s3.balances 2 = c5s1.balances 2 + 2 * 10 ^ 16 ∧
      c6s3.balances 2 ≠ c5s1.balances 2 :=
  ⟨by decide, by decide, rfl, rfl, rfl, by decide, by decide⟩

/-- Witness for `c6_stake_unstake_roundtrip`: a fresh stake (no pending
reward) of one token by address 2 in the deployment state, unstaked at the
same instant. -/
theorem c6_stake_unstake_roundtrip_witness :
    ∃ s1 s2, stake tok0 2 (10 ^ 18) 0 = .ok s1 ∧ unstake s1 2 (10 ^ 18) 0 = .ok s2 ∧
      s2.balances 2 = tok0.balances 2 ∧ s2.totalStaked = tok0.totalStaked :=
  c6_stake_unstake_roundtrip tok0 2 (10 ^ 18) 0 (by decide) (by decide) (by decide)
    (by decide) rfl rfl

/-! ## C5: conservation of the balance sum -/

theorem sum_update_add (g : Addr → Nat) {S : Finset Addr} {i : Addr} (hi : i ∈ S) (b : Nat) :
    (∑ a in S, Function.update g i b a) + g i = (∑ a in S, g a) + b := by
  rw [Finset.sum_update_of_mem hi, ← Finset.sum_erase_add S g hi,
    Finset.sdiff_singleton_eq_erase]
  ring

theorem erc20_transfer_sum {s s' : TokenState} {f t v : Nat} {S : Finset Addr}
    (h : erc20_transfer s f t v = .ok s') (hf : f ∈ S) (ht : t ∈ S) :
    (∑ x in S, s'.balances x) = ∑ x in S, s.balances x := by
  obtain ⟨-, -, -, hv, rfl⟩ := erc20_transfer_inv h
  have h1 := sum_update_add (Function.update s.balances f (s.balances f - v)) ht
    ((Function.update s.balances f (s.balances f - v)) t + v)
  have h2 := sum_update_add s.balances hf (s.balances f - v)
  simp only [transferBalances]
  omega

theorem transfer_sum_eq {s s' : TokenState} {c a v : Nat} {S : Finset Addr}
    (h : transfer s c a v = .ok s') (hc : c ∈ S) (ha : a ∈ S) :
    (∑ x in S, s'.balances x) = ∑ x in S, s.balances x :=
  erc20_transfer_sum h hc ha

theorem stake_sum {s s' : TokenState} {c v t : Nat} {S : Finset Addr}
    (h : stake s c v t = .ok s') (hz : calculateRewards s c t = 0)
    (hcS : c ∈ S) (hpS : poolAddr ∈ S) :
    (∑ x in S, s'.balances x) = ∑ x in S, s.balances x := by
  unfold stake at h
  by_cases hv : v = 0
  · simp [hv] at h
  · by_cases hb : s.balances c < v
    · simp [hv, hb] at h
    · simp [hv, hb, hz, bindE] at h
      cases htr : erc20_transfer s c poolAddr v with
      | error e => rw [htr] at h; simp at h
      | ok s2 =>
        rw [htr] at h
        simp at h
        have hb2 : s'.balances = s2.balances := by rw [← h]
        rw [hb2]
        exact erc20_transfer_sum htr hcS hpS

theorem unstake_sum {s s' : TokenState} {c v t : Nat} {S : Finset Addr}
    (h : unstake s c v t = .ok s') (hz : calculateRewards s c t = 0)
    (hcS : c ∈ S) (hpS : poolAddr ∈ S) :
    (∑ x in S, s'.balances x) = ∑ x in S, s.balances x := by
  unfold unstake at h
  by_cases hv : v = 0
  · simp [hv] at h
  · by_cases hb : s.stakedAmount c < v
    · simp [hv, hb] at h
    · simp [hv, hb, hz, bindE] at h
      cases htr : erc20_transfer
          { s with
            stakedAmount := Function.update s.stakedAmount c (s.stakedAmount c - v)
            totalStaked := s.totalStaked - v }
          poolAddr c v with
      | error e => rw [htr] at h; simp at h
      | ok s2 =>
        rw [htr] at h
        simp at h
        have hb2 : s'.balances = s2.balances := by rw [← h]
        rw [hb2, erc20_transfer_sum htr hpS hcS]

/-- C5 (corrected): over any sequence of successful `transfer`/`stake`/
`unstake` operations in which each `stake`/`unstake` settles a ZERO pending
reward at its point of execution, the sum of the balances of any address set
containing the pool and all participants is unchanged.  Without the
zero-settlement proviso the claim is false: `stake` and `unstake` both mint
the caller's accrued reward before moving funds, even though no `mint`,
`burn` or `claimRewards` call appears in the sequence — see
`c5_counterexample`. -/
theorem c5_conservation (S : Finset Addr) (hpool : poolAddr ∈ S) (s s' : TokenState)
    (h : ConsStepsZero S s s') :
    (∑ a in S, s'.balances a) = ∑ a in S, s.balances a := by
  induction h with
  | refl s => rfl
  | transferStep s s1 s2 c a v hc ha hstep hrest ih =>
    rw [ih, transfer_sum_eq hstep hc ha]
  | stakeStep s s1 s2 c v t hc hz hstep hrest ih =>
    rw [ih, stake_sum hstep hz hc hpool]
  | unstakeStep s s1 s2 c v t hc hz hstep hrest ih =>
    rw [ih, unstake_sum hstep hz hc hpool]

/-- C5 counterexample: the two-step sequence `c5ops` (a stake, then another
stake a year later) consists only of successful `stake` operations, yet the
balance sum over all participating addresses (the staker 2 and the pool 1)
grows by the 2 × 10^16 reward units minted inside the second stake. -/
theorem c5_counterexample :
    ¬ (∀ (S : Finset Addr) (s s' : TokenState), poolAddr ∈ S → ConsStepsAny S s s' →
        (∑ a in S, s'.balances a) = ∑ a in S, s.balances a) := by
  intro h
  have hchain : ConsStepsAny {1, 2} tok0 c5s2 :=
    .stakeStep tok0 c5s1 c5s2 2 (2 * 10 ^ 18) 0 (by decide)
      (show stake tok0 2 (2 * 10 ^ 18) 0 = .ok c5s1 from rfl)
      (.stakeStep c5s1 c5s2 c5s2 2 (10 ^ 18) 31536000 (by decide)
        (show stake c5s1 2 (10 ^ 18) 31536000 = .ok c5s2 from rfl) (.refl c5s2))
  have hsum := h {1, 2} tok0 c5s2 (by decide) hchain
  revert hsum
  decide

/-- Witness for `c5_conservation`: a one-step chain consisting of the plain
transfer `tok0 → c5w`. -/
theorem c5_conservation_witness :
    (∑ a in ({1, 2, 3} : Finset Addr), c5w.balances a) =
      ∑ a in ({1, 2, 3} : Finset Addr), tok0.balances a :=
  c5_conservation {1, 2, 3} (by decide) tok0 c5w
    (.transferStep tok0 c5w c5w 2 3 (5 * 10 ^ 18) (by decide) (by decide)
      (show transfer tok0 2 3 (5 * 10 ^ 18) = .ok c5w from rfl) (.refl c5w))

/-! ## C9: identity uniqueness -/

theorem applyIdOp_inv {s s' : IdState} {op : IdOp} (hc : op.caller ≠ 0)
    (h : applyIdOp s op = .ok s') (hinv : IdInv s) : IdInv s' := by
  obtain ⟨h0, hmap⟩ := hinv
  cases op with
  | register c hsh m t =>
    have hc' : c ≠ 0 := by simpa [IdOp.caller] using hc
    simp only [applyIdOp] at h
    unfold registerIdentity at h
    by_cases hh : hsh = 0
    · simp [hh] at h
    · by_cases ha : (s.identities c).isActive
      · simp [hh, ha] at h
      · by_cases hb : s.identityHashToAddress hsh = 0
        · simp [hh, ha, hb] at h
          subst h
          refine ⟨?_, ?_⟩
          · simp only [Function.update_apply]
            simp [show ¬ (0 : Addr) = c from fun hx => hc' hx.symm, h0]
          · intro a haA
            simp only [Function.update_apply] at haA ⊢
            by_cases hac : a = c
            · subst hac
              simp at haA ⊢
            · simp only [if_neg hac] at haA ⊢
              have hne : (s.identities a).identityHash ≠ hsh := by
                intro heq
                have hx := hmap a haA
                rw [heq, hb] at hx
                rw [← hx] at haA
                exact absurd haA (by simp [h0])
              simp [hne]
              exact hmap a haA
        · simp [hh, ha, hb] at h
  | verify c u b r t =>
    simp only [applyIdOp] at h
    unfold verifyIdentity at h
    by_cases hauth : s.authorizedVerifiers c = false
    · simp [hauth] at h
    · by_cases hact : (s.identities u).isActive = false
      · simp [hauth, hact] at h
      · by_cases hver : (s.identities u).isVerified
        · simp [hauth, hact, hver] at h
        · simp [hauth, hact, hver] at h
          subst h
          have hact' : (s.identities u).isActive = true := by simpa using hact
          have hu0 : u ≠ 0 := by
            intro hx
            rw [hx] at hact'
            exact absurd hact' (by simp [h0])
          refine ⟨?_, ?_⟩
          · simp only [Function.update_apply]
            simp [show ¬ (0 : Addr) = u from fun hx => hu0 hx.symm, h0]
          · intro a haA
            simp only [Function.update_apply] at haA ⊢
            by_cases hau : a = u
            · subst hau
              simp at haA ⊢
              exact hmap a hact'
            · simp only [if_neg hau] at haA ⊢
              exact hmap a haA
  | revoke c u =>
    simp only [applyIdOp] at h
    unfold revokeIdentity at h
    by_cases hown : c = s.owner
    · by_cases hact : (s.identities u).isActive = false
      · simp [hown, hact] at h
      · simp [hown, hact] at h
        subst h
        have hact' : (s.identities u).isActive = true := by simpa using hact
        have hu0 : u ≠ 0 := by
          intro hx
          rw [hx] at hact'
          exact absurd hact' (by simp [h0])
        refine ⟨?_, ?_⟩
        · simp only [Function.update_apply]
          simp [show ¬ (0 : Addr) = u from fun hx => hu0 hx.symm, h0]
        · intro a haA
          simp only [Function.update_apply] at haA ⊢
          by_cases hau : a = u
          · subst hau
            simp at haA
          · simp only [if_neg hau] at haA ⊢
            have hne : (s.identities a).identityHash ≠ (s.identities u).identityHash := by
              intro heq
              have hx1 := hmap a haA
              have hx2 := hmap u hact'
              rw [heq, hx2] at hx1
              exact hau hx1.symm
            simp [hne]
            exact hmap a haA
    · simp [hown] at h
  | updateMeta c m =>
    have hc' : c ≠ 0 := by simpa [IdOp.caller] using hc
    simp only [applyIdOp] at h
    unfold updateMetadata at h
    by_cases hact : (s.identities c).isActive = false
    · simp [hact] at h
    · simp [hact] at h
      subst h
      have hact' : (s.identities c).isActive = true := by simpa using hact
      refine ⟨?_, ?_⟩
      · simp only [Function.update_apply]
        simp [show ¬ (0 : Addr) = c from fun hx => hc' hx.symm, h0]
      · intro a haA
        simp only [Function.update_apply] at haA ⊢
        by_cases hac : a = c
        · subst hac
          simp at haA ⊢
          exact hmap a hact'
        · simp only [if_neg hac] at haA ⊢
          exact hmap a haA
  | authorize c vrf =>
    simp only [applyIdOp] at h
    unfold authorizeVerifier at h
    by_cases h1 : c = s.owner
    · by_cases h2 : vrf = 0
      · simp [h1, h2] at h
      · by_cases h3 : s.authorizedVerifiers vrf
        · simp [h1, h2, h3] at h
        · simp [h1, h2, h3] at h
          subst h
          exact ⟨h0, hmap⟩
    · simp [h1] at h
  | unauthorize c vrf =>
    simp only [applyIdOp] at h
    unfold revokeVerifier at h
    by_cases h1 : c = s.owner
    · by_cases h2 : s.authorizedVerifiers vrf = false
      · simp [h1, h2] at h
      · by_cases h3 : vrf = s.owner
        · rw [h3] at h2
          simp [h1, h2, h3] at h
        · simp [h1, h2, h3] at h
          subst h
          exact ⟨h0, hmap⟩
    · simp [h1] at h
  | transferOwn c o =>
    simp only [applyIdOp] at h
    unfold transferOwnership at h
    by_cases h1 : c = s.owner
    · by_cases h2 : o = 0
      · simp [h1, h2] at h
      · simp [h1, h2] at h
        subst h
        exact ⟨h0, hmap⟩
    · simp [h1] at h
  | renounceOwn c =>
    simp only [applyIdOp] at h
    unfold renounceOwnership at h
    by_cases h1 : c = s.owner
    · simp [h1] at h
      subst h
      exact ⟨h0, hmap⟩
    · simp [h1] at h

theorem execIdTrace_inv : ∀ (ops : List IdOp) (s s' : IdState),
    execIdTrace s ops = some s' → IdInv s → IdInv s'
  | [], s, s', h, hinv => by
    simp [execIdTrace] at h
    rwa [← h]
  | op :: ops, s, s', h, hinv => by
    unfold execIdTrace at h
    by_cases hc : op.caller = 0
    · simp [hc] at h
    · simp [hc] at h
      cases hap : applyIdOp s op with
      | error e => rw [hap] at h; simp at h
      | ok s1 =>
        rw [hap] at h
        exact execIdTrace_inv ops s1 s' h (applyIdOp_inv hc hap hinv)

theorem initialIdState_inv (deployer : Addr) : IdInv (initialIdState deployer) := by
  constructor
  · rfl
  · intro a ha
    simp [initialIdState, emptyIdentity] at ha

/-- C9 (confirmed): in every state reachable by any sequence of successful
`NexusVerseIdentity` operations, two distinct addresses never simultaneously
hold active identities with the same `identityHash` — `registerIdentity`
refuses a bound hash, and `revokeIdentity` both deactivates the identity and
clears its reverse-index binding, keeping the index an inverse of the active
records. -/
theorem c9_identity_uniqueness (s : IdState) (hs : IdReachable s) (A B : Addr)
    (hAB : A ≠ B) (hA : (s.identities A).isActive = true)
    (hB : (s.identities B).isActive = true) :
    (s.identities A).identityHash ≠ (s.identities B).identityHash := by
  obtain ⟨d, ops, hd, hexec⟩ := hs
  have hinv : IdInv s := execIdTrace_inv ops _ s hexec (initialIdState_inv d)
  intro heq
  have h1 := hinv.2 A hA
  have h2 := hinv.2 B hB
  rw [heq] at h1
  exact hAB (h1.symm.trans h2)

/-- Witness for `c9_identity_uniqueness` at the concrete reachable state
`c9w`, where addresses 3 and 4 hold active identities. -/
theorem c9_identity_uniqueness_witness :
    (c9w.identities 3).identityHash ≠ (c9w.identities 4).identityHash :=
  c9_identity_uniqueness c9w ⟨2, c9ops, by decide, rfl⟩ 3 4 (by decide) rfl rfl

end NexusVerse
